import Mathlib

/-!
Verification of the photo_importer pipeline (photo_importer/importer.py and
photo_importer/cli.py), shallowly embedded in Lean.

Modelling conventions:
* Python `int` is `Int` (for `max_errors`, which may be negative on the CLI);
  the four run counters are `Nat` (they start at 0 and are only incremented).
* Filesystem and subprocess effects are inputs: each candidate file carries the
  results the environment would produce (metadata-extraction outcomes, the
  success of `os.makedirs`/`os.access`, the set of paths existing at the
  destination, and the success of `shutil.copy2`).
* Exceptions are explicit environment cases (`exn`) or `Option` results; the
  Python `try/except` blocks that swallow them become `none` branches.
* `os.path.abspath` is modelled as the identity: path strings are only
  compared and concatenated, never resolved against a working directory.
* The instrumented run result additionally records how many candidate files
  were handed to `process_file`, whether the loop stopped early, and the trace
  of attempted filesystem effects; these ghost fields observe side effects and
  do not alter the embedded control flow.
-/

/-- Index of the last occurrence of `c` (Python `str.rfind`), if any. -/
def lastIdxAux (c : Char) : List Char → Nat → Option Nat
  | [], _ => none
  | x :: xs, i =>
    match lastIdxAux c xs (i + 1) with
    | some j => some j
    | none => if x = c then some i else none

def lastIdx (c : Char) (cs : List Char) : Option Nat :=
  lastIdxAux c cs 0

/-- Python `os.path.splitext` (posixpath): split off the extension at the last
dot of the basename, treating a run of leading dots as part of the name. -/
def splitext (p : String) : String × String :=
  let cs := p.data
  match lastIdx '.' cs with
  | none => (p, "")
  | some d =>
    let sep := lastIdx '/' cs
    let ok : Bool := match sep with
      | none => true
      | some s => decide (s < d)
    if ok then
      let start : Nat := match sep with
        | none => 0
        | some s => s + 1
      if ((cs.drop start).take (d - start)).any (fun ch => ch ≠ '.') then
        (⟨cs.take d⟩, ⟨cs.drop d⟩)
      else (p, "")
    else (p, "")

/-- Python `os.path.basename`: everything after the last slash. -/
def basename (p : String) : String :=
  match lastIdx '/' p.data with
  | none => p
  | some s => ⟨p.data.drop (s + 1)⟩

/-- Python `str.lower` (the paths compared here are ASCII). -/
def pylower (s : String) : String :=
  ⟨s.data.map Char.toLower⟩

/-- Python `str.strip()`: drop whitespace from both ends. -/
def pystrip (s : String) : String :=
  ⟨(((s.data.dropWhile Char.isWhitespace).reverse.dropWhile Char.isWhitespace).reverse)⟩

/-- Python `os.path.join` for two components (posixpath). -/
def pjoin (a b : String) : String :=
  if b.data.head? = some '/' then b
  else if a.data = [] ∨ a.data.getLast? = some '/' then a ++ b
  else a ++ "/" ++ b

/-- Decimal digits of `n`, least significant first, with structural fuel
(`fuel > n` suffices).  Mirrors Python `str(int)` for non-negative values. -/
def natToDigitsRev (fuel n : Nat) : List Char :=
  match fuel with
  | 0 => []
  | fuel + 1 =>
    if n < 10 then [Nat.digitChar n]
    else Nat.digitChar (n % 10) :: natToDigitsRev fuel (n / 10)

/-- Python `str(n)` for a non-negative integer. -/
def pyStr (n : Nat) : String :=
  ⟨(natToDigitsRev (n + 1) n).reverse⟩

/-- Left-pad with zeros to width `w` (Python `%0wd`, used by `strftime`). -/
def padZero (w : Nat) (s : String) : String :=
  ⟨List.replicate (w - s.data.length) '0' ++ s.data⟩

/-- A naive calendar timestamp as produced by `datetime.datetime.strptime`. -/
structure DateTime where
  year : Nat
  month : Nat
  day : Nat
  hour : Nat
  minute : Nat
  second : Nat
deriving DecidableEq

def digitVal (c : Char) : Nat := c.toNat - 48

/-- CPython `_strptime` regex fragment for `%Y`: exactly four digits. -/
def parseYear : List Char → Option (Nat × List Char)
  | a :: b :: c :: d :: rest =>
    if a.isDigit ∧ b.isDigit ∧ c.isDigit ∧ d.isDigit then
      some (((digitVal a * 10 + digitVal b) * 10 + digitVal c) * 10 + digitVal d, rest)
    else none
  | _ => none

/-- CPython `_strptime` regex fragment for `%m`: `1[0-2]|0[1-9]|[1-9]`. -/
def parseMonth : List Char → Option (Nat × List Char)
  | a :: b :: rest =>
    if a = '1' ∧ ('0' ≤ b ∧ b ≤ '2') then some (10 + digitVal b, rest)
    else if a = '0' ∧ ('1' ≤ b ∧ b ≤ '9') then some (digitVal b, rest)
    else if '1' ≤ a ∧ a ≤ '9' then some (digitVal a, b :: rest)
    else none
  | [a] => if '1' ≤ a ∧ a ≤ '9' then some (digitVal a, []) else none
  | [] => none

/-- CPython `_strptime` regex fragment for `%d`: `3[01]|[12]\d|0[1-9]|[1-9]`. -/
def parseDay : List Char → Option (Nat × List Char)
  | a :: b :: rest =>
    if a = '3' ∧ (b = '0' ∨ b = '1') then some (30 + digitVal b, rest)
    else if (a = '1' ∨ a = '2') ∧ b.isDigit then some (digitVal a * 10 + digitVal b, rest)
    else if a = '0' ∧ ('1' ≤ b ∧ b ≤ '9') then some (digitVal b, rest)
    else if '1' ≤ a ∧ a ≤ '9' then some (digitVal a, b :: rest)
    else none
  | [a] => if '1' ≤ a ∧ a ≤ '9' then some (digitVal a, []) else none
  | [] => none

/-- CPython `_strptime` regex fragment for `%H`: `2[0-3]|[0-1]\d|\d`. -/
def parseHour : List Char → Option (Nat × List Char)
  | a :: b :: rest =>
    if a = '2' ∧ ('0' ≤ b ∧ b ≤ '3') then some (20 + digitVal b, rest)
    else if (a = '0' ∨ a = '1') ∧ b.isDigit then some (digitVal a * 10 + digitVal b, rest)
    else if a.isDigit then some (digitVal a, b :: rest)
    else none
  | [a] => if a.isDigit then some (digitVal a, []) else none
  | [] => none

/-- CPython `_strptime` regex fragment for `%M`: `[0-5]\d|\d`. -/
def parseMinute : List Char → Option (Nat × List Char)
  | a :: b :: rest =>
    if ('0' ≤ a ∧ a ≤ '5') ∧ b.isDigit then some (digitVal a * 10 + digitVal b, rest)
    else if a.isDigit then some (digitVal a, b :: rest)
    else none
  | [a] => if a.isDigit then some (digitVal a, []) else none
  | [] => none

/-- CPython `_strptime` regex fragment for `%S`: `6[0-1]|[0-5]\d|\d`. -/
def parseSecond : List Char → Option (Nat × List Char)
  | a :: b :: rest =>
    if a = '6' ∧ (b = '0' ∨ b = '1') then some (60 + digitVal b, rest)
    else if ('0' ≤ a ∧ a ≤ '5') ∧ b.isDigit then some (digitVal a * 10 + digitVal b, rest)
    else if a.isDigit then some (digitVal a, b :: rest)
    else none
  | [a] => if a.isDigit then some (digitVal a, []) else none
  | [] => none

/-- Literal `:` in the format string. -/
def parseColon : List Char → Option (List Char)
  | c :: rest => if c = ':' then some rest else none
  | [] => none

/-- Whitespace in a `strptime` format matches one or more whitespace chars. -/
def parseSpaces : List Char → Option (List Char)
  | c :: rest => if c.isWhitespace then some (rest.dropWhile Char.isWhitespace) else none
  | [] => none

def isLeapYear (y : Nat) : Bool :=
  y % 4 = 0 ∧ (¬ y % 100 = 0 ∨ y % 400 = 0)

def daysInMonth (y m : Nat) : Nat :=
  if m = 2 then (if isLeapYear y then 29 else 28)
  else if m = 4 ∨ m = 6 ∨ m = 9 ∨ m = 11 then 30
  else 31

/-- `datetime.datetime.strptime(s, "%Y:%m:%d %H:%M:%S")`, returning `none`
where Python raises `ValueError` (unmatched input, trailing input, or a field
rejected by the `datetime` constructor: year 0, an invalid day of month, or a
leap second). -/
def strptime_YmdHMS (s : String) : Option DateTime := do
  let (y, r1) ← parseYear s.data
  let r2 ← parseColon r1
  let (mo, r3) ← parseMonth r2
  let r4 ← parseColon r3
  let (da, r5) ← parseDay r4
  let r6 ← parseSpaces r5
  let (h, r7) ← parseHour r6
  let r8 ← parseColon r7
  let (mi, r9) ← parseMinute r8
  let r10 ← parseColon r9
  let (se, r11) ← parseSecond r10
  if r11 = [] ∧ 1 ≤ y ∧ da ≤ daysInMonth y mo ∧ se ≤ 59 then
    some ⟨y, mo, da, h, mi, se⟩
  else none

/-- `ImportStats` (importer.py lines 11-17): the four run counters. -/
structure ImportStats where
  processed : Nat := 0
  imported : Nat := 0
  skipped : Nat := 0
  errors : Nat := 0
deriving DecidableEq

/-- `ImportConfig` (importer.py lines 19-27). `allowed_extensions` is a set in
the source; the model lists its elements. -/
structure ImportConfig where
  source_dir : String
  target_dir : String
  skip_existing : Bool := false
  overwrite : Bool := false
  max_errors : Int := 10
  allowed_extensions : List String := [".jpg", ".jpeg", ".raf"]
deriving DecidableEq

/-- The parsed CLI namespace consumed by `validate_arguments`. -/
structure Args where
  source_dir : String
  target_dir : String
  skip_existing : Bool
  overwrite : Bool
  max_errors : Int
deriving DecidableEq

/-- Results of the `os.path` probes performed by `validate_arguments` on the
source directory. -/
structure ValidateEnv where
  src_exists : Bool
  src_isdir : Bool
  src_readable : Bool
deriving DecidableEq

/-- Outcome of `subprocess.run(["exiftool", ...])`: either the call raised
(`exn`, e.g. the tool is missing), or it returned captured stdout and an exit
status. -/
inductive ExiftoolResult where
  | exn
  | ok (stdout : String) (returncode : Int)
deriving DecidableEq

/-- Outcome of opening the file and calling `exifread.process_file`: either an
exception, or a tag table with the two date tags the code looks up (a `some`
value is the `str()` of a present, always-truthy `IfdTag`). -/
inductive ExifreadResult where
  | exn
  | tags (dateTimeOriginal imageDateTime : Option String)
deriving DecidableEq

/-- One candidate file together with everything the environment decides about
it during `process_file`. -/
structure FileCase where
  path : String
  exiftool : ExiftoolResult
  exifread : ExifreadResult
  mkdir_ok : Bool
  fs : List String
  copy_ok : Bool
deriving DecidableEq

/-- Ghost trace of the filesystem-effect attempts made while processing a
file: a date-resolution attempt, `create_destination_directory`, `copy_file`. -/
inductive FsAction where
  | resolve (path : String)
  | mkdir (path : String)
  | copy (src dst : String)
deriving DecidableEq

/-- `extract_date_with_exiftool` (importer.py lines 48-60): trim stdout; if
non-empty, parse it; any exception (tool invocation or parse) yields `None`.
The exit status is never examined. -/
def extract_date_with_exiftool (r : ExiftoolResult) : Option DateTime :=
  match r with
  | .exn => none
  | .ok stdout _returncode =>
    let date_str := pystrip stdout
    if date_str = "" then none else strptime_YmdHMS date_str

/-- `extract_date_with_exifread` (importer.py lines 32-46): skip `.raf`;
otherwise read the two date tags (`or`-chained) and parse; any exception
yields `None`. -/
def extract_date_with_exifread (file_path : String) (r : ExifreadResult) : Option DateTime :=
  if pylower (splitext file_path).2 = ".raf" then none
  else
    match r with
    | .exn => none
    | .tags dateTimeOriginal imageDateTime =>
      match (match dateTimeOriginal with
             | some s => some s
             | none => imageDateTime) with
      | some date_str => strptime_YmdHMS date_str
      | none => none

/-- `get_date_taken` (importer.py lines 62-75): exiftool for `.raf`, exifread
otherwise. -/
def get_date_taken (file_path : String) (ft : ExiftoolResult) (fr : ExifreadResult) :
    Option DateTime :=
  if pylower (splitext file_path).2 = ".raf" then extract_date_with_exiftool ft
  else extract_date_with_exifread file_path fr

/-- The `f"{base}_{counter}{ext}"` candidate built by
`get_unique_destination_path`. -/
def uniqueCand (base ext : String) (counter : Nat) : String :=
  base ++ "_" ++ pyStr counter ++ ext

/-- The `while os.path.exists(dest_path)` probe of
`get_unique_destination_path`, with structural fuel; the caller passes enough
fuel for the probe to find a free candidate (proved below), so the fuel-0
fallback is unreachable. -/
def uniqueLoop (fs : List String) (base ext : String) : Nat → Nat → String
  | counter, 0 => uniqueCand base ext counter
  | counter, fuel + 1 =>
    if uniqueCand base ext counter ∈ fs then uniqueLoop fs base ext (counter + 1) fuel
    else uniqueCand base ext counter

/-- `get_unique_destination_path` (importer.py lines 90-100). -/
def get_unique_destination_path (fs : List String) (dest_path : String) : String :=
  if dest_path ∈ fs then
    let be := splitext dest_path
    uniqueLoop fs be.1 be.2 1 (fs.length + 1)
  else dest_path

/-- The collision handling inlined at importer.py lines 137-143: `none` means
"exists, skip_existing set: skip"; otherwise the path to copy to. -/
def plan_dest_path (fs : List String) (config : ImportConfig) (dest_path : String) :
    Option String :=
  if dest_path ∈ fs then
    if config.skip_existing then none
    else if ¬ config.overwrite then some (get_unique_destination_path fs dest_path)
    else some dest_path
  else some dest_path

/-- The `os.path.join(target, %Y, %m, %d)` of importer.py lines 124-129.
`strftime` zero-pads `%Y` to four and `%m`/`%d` to two digits. -/
def dest_dir_for (config : ImportConfig) (d : DateTime) : String :=
  pjoin (pjoin (pjoin config.target_dir (padZero 4 (pyStr d.year)))
      (padZero 2 (pyStr d.month)))
    (padZero 2 (pyStr d.day))

/-- `process_file` (importer.py lines 111-154).  Returns the updated stats,
the should-continue flag, and the ghost trace of attempted effects.
`create_destination_directory` and `copy_file` are the environment booleans
`f.mkdir_ok` and `f.copy_ok`. -/
def process_file (f : FileCase) (config : ImportConfig) (stats : ImportStats) :
    ImportStats × Bool × List FsAction :=
  let stats1 : ImportStats := { stats with processed := stats.processed + 1 }
  if (stats1.errors : Int) ≥ config.max_errors then
    (stats1, false, [])
  else
    match get_date_taken f.path f.exiftool f.exifread with
    | none => (stats1, true, [FsAction.resolve f.path])
    | some d =>
      let dest_dir := dest_dir_for config d
      if ¬ f.mkdir_ok then
        let stats2 := { stats1 with errors := stats1.errors + 1 }
        (stats2, decide ((stats2.errors : Int) < config.max_errors),
          [FsAction.resolve f.path, FsAction.mkdir dest_dir])
      else
        let dest0 := pjoin dest_dir (basename f.path)
        match plan_dest_path f.fs config dest0 with
        | none =>
          ({ stats1 with skipped := stats1.skipped + 1 }, true,
            [FsAction.resolve f.path, FsAction.mkdir dest_dir])
        | some dp =>
          if f.copy_ok then
            ({ stats1 with imported := stats1.imported + 1 }, true,
              [FsAction.resolve f.path, FsAction.mkdir dest_dir, FsAction.copy f.path dp])
          else
            let stats2 := { stats1 with errors := stats1.errors + 1 }
            (stats2, decide ((stats2.errors : Int) < config.max_errors),
              [FsAction.resolve f.path, FsAction.mkdir dest_dir, FsAction.copy f.path dp])

/-- Result of the run loop, instrumented: `consumed` counts files handed to
`process_file`, `aborted` records an early `break`, `actions` concatenates the
per-file effect traces. -/
structure RunResult where
  stats : ImportStats
  consumed : Nat
  aborted : Bool
  actions : List FsAction
deriving DecidableEq

/-- The `for file_path in self._get_image_files()` loop of `run`
(importer.py lines 210-215). -/
def runAux (config : ImportConfig) (stats : ImportStats) : List FileCase → RunResult
  | [] => ⟨stats, 0, false, []⟩
  | f :: rest =>
    match process_file f config stats with
    | (s, cont, tr) =>
      if cont then
        let r := runAux config s rest
        ⟨r.stats, r.consumed + 1, r.aborted, tr ++ r.actions⟩
      else ⟨s, 1, true, tr⟩

/-- `run` (importer.py lines 196-218): raises `ValueError` when
`validate_arguments` has not stored a config. -/
def run (config : Option ImportConfig) (files : List FileCase) : Except String RunResult :=
  match config with
  | none => Except.error "Must call validate_arguments before run"
  | some cfg => Except.ok (runAux cfg {} files)

/-- `validate_arguments` (importer.py lines 156-185). -/
def validate_arguments (args : Args) (env : ValidateEnv) : Bool × Option ImportConfig :=
  if args.skip_existing ∧ args.overwrite then (false, none)
  else if ¬ env.src_exists then (false, none)
  else if ¬ env.src_isdir then (false, none)
  else if ¬ env.src_readable then (false, none)
  else (true,
    some { source_dir := args.source_dir
           target_dir := args.target_dir
           skip_existing := args.skip_existing
           overwrite := args.overwrite
           max_errors := args.max_errors })

/-- `main` (cli.py lines 50-79), with the exit code paired with a ghost flag
recording whether the pipeline (`importer.run`) was entered. -/
def cli_main (args : Args) (env : ValidateEnv) (files : List FileCase) : Int × Bool :=
  if args.skip_existing ∧ args.overwrite then (1, false)
  else
    match validate_arguments args env with
    | (false, _) => (1, false)
    | (true, none) => (1, false)
    | (true, some cfg) =>
      match run (some cfg) files with
      | .error _ => (1, true)
      | .ok r => ((if (r.stats.errors : Int) < cfg.max_errors then 0 else 1), true)

/-- `_get_image_files` (importer.py lines 187-194): the walk is supplied as a
list of `(root, files)` pairs; keep files whose lowered extension is allowed. -/
def get_image_files (walk : List (String × List String)) (config : ImportConfig) :
    List String :=
  walk.foldr
    (fun rf acc =>
      (rf.2.filter (fun file => pylower (splitext file).2 ∈ config.allowed_extensions)).map
          (fun file => pjoin rf.1 file) ++ acc)
    []

/-- Number of candidate files in `files` whose date resolution yields no date
(the claimed missing-date count). -/
def countNoDate (files : List FileCase) : Nat :=
  (files.filter (fun f => (get_date_taken f.path f.exiftool f.exifread).isNone)).length

/-! Helper lemmas about the decimal rendering used by the unique-path probe. -/

def digitsVal (cs : List Char) : Nat :=
  cs.foldl (fun a c => a * 10 + digitVal c) 0

lemma digitVal_digitChar : ∀ d, d < 10 → digitVal (Nat.digitChar d) = d := by decide

lemma ntdr_val : ∀ n fuel : Nat, n < fuel →
    digitsVal ((natToDigitsRev fuel n).reverse) = n := by
  intro n
  induction n using Nat.strong_induction_on with
  | _ n ih =>
    intro fuel hf
    match fuel, hf with
    | fuel + 1, _ =>
      by_cases h10 : n < 10
      · simp only [natToDigitsRev, if_pos h10, List.reverse_singleton, digitsVal, List.foldl]
        rw [Nat.zero_mul, Nat.zero_add, digitVal_digitChar n h10]
      · have hpos : 0 < n := by omega
        have hdiv : n / 10 < n := Nat.div_lt_self hpos (by omega)
        have hdivf : n / 10 < fuel := by omega
        rw [natToDigitsRev, if_neg h10, List.reverse_cons]
        rw [digitsVal, List.foldl_append]
        have hrec := ih (n / 10) hdiv fuel hdivf
        rw [digitsVal] at hrec
        rw [hrec]
        simp only [List.foldl]
        rw [digitVal_digitChar (n % 10) (Nat.mod_lt n (by omega))]
        omega

lemma pyStr_inj : Function.Injective pyStr := by
  intro m n h
  have h2 : (natToDigitsRev (m + 1) m).reverse = (natToDigitsRev (n + 1) n).reverse :=
    congrArg String.data h
  have hm := ntdr_val m (m + 1) (by omega)
  have hn := ntdr_val n (n + 1) (by omega)
  rw [← hm, ← hn, h2]

lemma uniqueCand_inj (b e : String) : Function.Injective (uniqueCand b e) := by
  intro i j h
  apply pyStr_inj
  have hd := congrArg String.data h
  simp only [uniqueCand, String.data_append] at hd
  exact String.ext (List.append_cancel_left (List.append_cancel_right hd))

lemma exists_free_uniqueCand (fs : List String) (b e : String) :
    ∃ j, j < fs.length + 1 ∧ uniqueCand b e (1 + j) ∉ fs := by
  by_contra hc
  push_neg at hc
  have hinj : Function.Injective (fun j : Nat => uniqueCand b e (1 + j)) := by
    intro x y hxy
    have := uniqueCand_inj b e hxy
    omega
  have hsub : (Finset.range (fs.length + 1)).image (fun j => uniqueCand b e (1 + j)) ⊆
      fs.toFinset := by
    intro x hx
    rw [Finset.mem_image] at hx
    obtain ⟨j, hj, rfl⟩ := hx
    rw [List.mem_toFinset]
    exact hc j (Finset.mem_range.mp hj)
  have hcard := Finset.card_le_card hsub
  rw [Finset.card_image_of_injective _ hinj, Finset.card_range] at hcard
  have := fs.toFinset_card_le
  omega

lemma uniqueLoop_spec (fs : List String) (b e : String) :
    ∀ fuel counter, (∃ j, j < fuel ∧ uniqueCand b e (counter + j) ∉ fs) →
    ∃ j, j < fuel ∧ (∀ i, i < j → uniqueCand b e (counter + i) ∈ fs) ∧
      uniqueCand b e (counter + j) ∉ fs ∧
      uniqueLoop fs b e counter fuel = uniqueCand b e (counter + j) := by
  intro fuel
  induction fuel with
  | zero => intro counter ⟨j, hj, _⟩; omega
  | succ fuel ih =>
    intro counter ⟨j0, hj0, hfree⟩
    by_cases hmem : uniqueCand b e counter ∈ fs
    · have hj0pos : j0 ≠ 0 := by
        intro h0
        rw [h0, Nat.add_zero] at hfree
        exact hfree hmem
      have hex : ∃ j, j < fuel ∧ uniqueCand b e (counter + 1 + j) ∉ fs := by
        refine ⟨j0 - 1, by omega, ?_⟩
        have : counter + 1 + (j0 - 1) = counter + j0 := by omega
        rw [this]
        exact hfree
      obtain ⟨j, hj, hmin, hfr, hloop⟩ := ih (counter + 1) hex
      refine ⟨j + 1, by omega, ?_, ?_, ?_⟩
      · intro i hi
        match i with
        | 0 => rw [Nat.add_zero]; exact hmem
        | i + 1 =>
          have : counter + (i + 1) = counter + 1 + i := by omega
          rw [this]
          exact hmin i (by omega)
      · have : counter + (j + 1) = counter + 1 + j := by omega
        rw [this]
        exact hfr
      · rw [uniqueLoop, if_pos hmem, hloop]
        congr 1
        omega
    · exact ⟨0, by omega, by omega, by rw [Nat.add_zero]; exact hmem,
        by rw [uniqueLoop, if_neg hmem, Nat.add_zero]⟩

lemma get_unique_spec (fs : List String) (dest : String) (h : dest ∈ fs) :
    ∃ k, 1 ≤ k ∧
      (∀ i, 1 ≤ i → i < k → uniqueCand (splitext dest).1 (splitext dest).2 i ∈ fs) ∧
      uniqueCand (splitext dest).1 (splitext dest).2 k ∉ fs ∧
      get_unique_destination_path fs dest =
        uniqueCand (splitext dest).1 (splitext dest).2 k := by
  obtain ⟨j0, hj0, hfree⟩ :=
    exists_free_uniqueCand fs (splitext dest).1 (splitext dest).2
  obtain ⟨j, hj, hmin, hfr, hloop⟩ :=
    uniqueLoop_spec fs (splitext dest).1 (splitext dest).2 (fs.length + 1) 1
      ⟨j0, hj0, hfree⟩
  refine ⟨1 + j, by omega, ?_, hfr, ?_⟩
  · intro i h1 h2
    have hi : i = 1 + (i - 1) := by omega
    rw [hi]
    exact hmin (i - 1) (by omega)
  · rw [get_unique_destination_path, if_pos h]
    exact hloop

/-! Lemmas about the digit strings produced by `strftime` components. -/

lemma ntdr_ne_nil (fuel n : Nat) (h : 0 < fuel) : natToDigitsRev fuel n ≠ [] := by
  match fuel, h with
  | fuel + 1, _ =>
    rw [natToDigitsRev]
    split
    · exact List.cons_ne_nil _ _
    · exact List.cons_ne_nil _ _

lemma ntdr_chars : ∀ (fuel n : Nat) (c : Char), c ∈ natToDigitsRev fuel n →
    ∃ dd, dd < 10 ∧ c = Nat.digitChar dd := by
  intro fuel
  induction fuel with
  | zero => intro n c hc; simp [natToDigitsRev] at hc
  | succ fuel ih =>
    intro n c hc
    rw [natToDigitsRev] at hc
    split at hc
    · rename_i h10
      rw [List.mem_singleton] at hc
      exact ⟨n, h10, hc⟩
    · rw [List.mem_cons] at hc
      cases hc with
      | inl h => exact ⟨n % 10, Nat.mod_lt n (by omega), h⟩
      | inr h => exact ih (n / 10) c h

lemma pyStr_ne_nil (n : Nat) : (pyStr n).data ≠ [] := by
  rw [pyStr]
  simpa using ntdr_ne_nil (n + 1) n (by omega)

lemma padZero_pyStr_ne_nil (w n : Nat) : (padZero w (pyStr n)).data ≠ [] := by
  rw [padZero]
  simpa using fun _ => pyStr_ne_nil n

lemma digitChar_ne_slash : ∀ dd, dd < 10 → Nat.digitChar dd ≠ '/' := by decide

lemma padZero_pyStr_chars (w n : Nat) (c : Char)
    (hc : c ∈ (padZero w (pyStr n)).data) : c ≠ '/' := by
  rw [padZero] at hc
  simp only [List.mem_append, List.mem_replicate] at hc
  cases hc with
  | inl h =>
    rw [h.2]
    decide
  | inr h =>
    rw [pyStr] at h
    rw [List.mem_reverse] at h
    obtain ⟨dd, hdd, rfl⟩ := ntdr_chars (n + 1) n c h
    exact digitChar_ne_slash dd hdd

lemma mem_of_head?_eq (l : List Char) (c : Char) (h : l.head? = some c) : c ∈ l := by
  cases l with
  | nil => simp at h
  | cons a t =>
    rw [List.head?_cons, Option.some.injEq] at h
    rw [← h]
    exact List.mem_cons_self a t

lemma mem_of_getLast?_eq (l : List Char) (c : Char) (h : l.getLast? = some c) : c ∈ l := by
  obtain ⟨hne, hc⟩ := List.mem_getLast?_eq_getLast (Option.mem_def.mpr h)
  rw [hc]
  exact List.getLast_mem hne

lemma ntdr_length : ∀ (fuel n k : Nat), 1 ≤ k → n < 10 ^ k →
    (natToDigitsRev fuel n).length ≤ k := by
  intro fuel
  induction fuel with
  | zero => intro n k hk _; simp [natToDigitsRev]
  | succ fuel ih =>
    intro n k hk hn
    rw [natToDigitsRev]
    split
    · simpa using hk
    · rename_i h10
      have hk2 : 2 ≤ k := by
        by_contra hlt
        have : k = 1 := by omega
        rw [this] at hn
        norm_num at hn
        omega
      have hdiv : n / 10 < 10 ^ (k - 1) := by
        rw [Nat.div_lt_iff_lt_mul (by omega)]
        calc n < 10 ^ k := hn
        _ = 10 ^ (k - 1) * 10 := by
          rw [← Nat.pow_succ]
          congr 1
          omega
      have := ih (n / 10) (k - 1) (by omega) hdiv
      simp only [List.length_cons]
      omega

lemma pyStr_length_le (n k : Nat) (h1 : 1 ≤ k) (h2 : n < 10 ^ k) :
    (pyStr n).data.length ≤ k := by
  rw [pyStr]
  simpa using ntdr_length (n + 1) n k h1 h2

lemma padZero_length (w : Nat) (s : String) (h : s.data.length ≤ w) :
    (padZero w s).data.length = w := by
  rw [padZero]
  show (List.replicate (w - s.data.length) '0' ++ s.data).length = w
  rw [List.length_append, List.length_replicate]
  omega

lemma pjoin_of_components (a b : String) (hb : b.data.head? ≠ some '/')
    (ha1 : a.data ≠ []) (ha2 : a.data.getLast? ≠ some '/') :
    pjoin a b = a ++ "/" ++ b := by
  rw [pjoin, if_neg hb, if_neg]
  rw [not_or]
  exact ⟨ha1, ha2⟩

lemma padZero_pyStr_head_ne (w n : Nat) :
    (padZero w (pyStr n)).data.head? ≠ some '/' := by
  intro h
  exact padZero_pyStr_chars w n '/' (mem_of_head?_eq _ _ h) rfl

lemma padZero_pyStr_getLast_ne (w n : Nat) :
    (padZero w (pyStr n)).data.getLast? ≠ some '/' := by
  intro h
  exact padZero_pyStr_chars w n '/' (mem_of_getLast?_eq _ _ h) rfl

lemma append_component_ne_nil (a : String) (w n : Nat) :
    (a ++ "/" ++ padZero w (pyStr n)).data ≠ [] := by
  simp only [String.data_append]
  intro h
  rw [List.append_eq_nil] at h
  exact padZero_pyStr_ne_nil w n h.2

lemma append_component_getLast_ne (a : String) (w n : Nat) :
    (a ++ "/" ++ padZero w (pyStr n)).data.getLast? ≠ some '/' := by
  simp only [String.data_append]
  rw [List.getLast?_append_of_ne_nil _ (padZero_pyStr_ne_nil w n)]
  exact padZero_pyStr_getLast_ne w n

/-! Structural lemmas about `process_file` and the run loop. -/

lemma process_file_processed (f : FileCase) (cfg : ImportConfig) (s : ImportStats) :
    (process_file f cfg s).1.processed = s.processed + 1 := by
  unfold process_file
  dsimp only
  split
  · rfl
  · split
    · rfl
    · split
      · rfl
      · split
        · rfl
        · split
          · rfl
          · rfl

lemma process_file_accounting (f : FileCase) (cfg : ImportConfig) (s : ImportStats)
    (h : (s.errors : Int) < cfg.max_errors) :
    (process_file f cfg s).1.imported + (process_file f cfg s).1.skipped +
        (process_file f cfg s).1.errors +
        (if (get_date_taken f.path f.exiftool f.exifread).isNone then 1 else 0)
      = s.imported + s.skipped + s.errors + 1 ∧
    ((process_file f cfg s).2.1 = true →
      ((process_file f cfg s).1.errors : Int) < cfg.max_errors) := by
  unfold process_file
  dsimp only
  rw [if_neg (by omega)]
  cases hd : get_date_taken f.path f.exiftool f.exifread with
  | none => simp [hd, h]
  | some d =>
    simp only [hd, Option.isNone_some, Bool.false_eq_true, if_false]
    split
    · dsimp only
      constructor
      · omega
      · intro hc
        rw [decide_eq_true_iff] at hc
        exact hc
    · split
      · dsimp only
        constructor
        · omega
        · intro _
          exact h
      · split
        · dsimp only
          constructor
          · omega
          · intro _
            exact h
        · dsimp only
          constructor
          · omega
          · intro hc
            rw [decide_eq_true_iff] at hc
            exact hc

lemma process_file_error_cont (f : FileCase) (cfg : ImportConfig) (s : ImportStats)
    (h : (process_file f cfg s).1.errors = s.errors + 1) :
    (process_file f cfg s).2.1 = decide ((s.errors : Int) + 1 < cfg.max_errors) := by
  unfold process_file at h ⊢
  dsimp only at h ⊢
  by_cases hgate : (s.errors : Int) ≥ cfg.max_errors
  · rw [if_pos hgate] at h ⊢
    dsimp only at h
    omega
  · rw [if_neg hgate] at h ⊢
    cases hd : get_date_taken f.path f.exiftool f.exifread with
    | none =>
      rw [hd] at h
      dsimp only at h
      omega
    | some d =>
      rw [hd] at h
      dsimp only at h ⊢
      by_cases hmk : ¬ f.mkdir_ok = true
      · rw [if_pos hmk] at h ⊢
        dsimp only
        rw [decide_eq_decide]
        omega
      · rw [if_neg hmk] at h ⊢
        cases hplan : plan_dest_path f.fs cfg (pjoin (dest_dir_for cfg d) (basename f.path)) with
        | none =>
          rw [hplan] at h
          dsimp only at h
          omega
        | some dp =>
          rw [hplan] at h
          dsimp only at h ⊢
          by_cases hcp : f.copy_ok = true
          · rw [if_pos hcp] at h ⊢
            dsimp only at h
            omega
          · rw [if_neg hcp] at h ⊢
            dsimp only
            rw [decide_eq_decide]
            omega

lemma runAux_cons (cfg : ImportConfig) (s : ImportStats) (f : FileCase)
    (rest : List FileCase) :
    runAux cfg s (f :: rest) =
      if (process_file f cfg s).2.1 then
        ⟨(runAux cfg (process_file f cfg s).1 rest).stats,
          (runAux cfg (process_file f cfg s).1 rest).consumed + 1,
          (runAux cfg (process_file f cfg s).1 rest).aborted,
          (process_file f cfg s).2.2 ++ (runAux cfg (process_file f cfg s).1 rest).actions⟩
      else ⟨(process_file f cfg s).1, 1, true, (process_file f cfg s).2.2⟩ := by
  rcases hpf : process_file f cfg s with ⟨s1, cont, tr⟩
  simp only [runAux, hpf]

lemma runAux_processed (cfg : ImportConfig) :
    ∀ (files : List FileCase) (s : ImportStats),
      ((runAux cfg s files).stats).processed = s.processed + (runAux cfg s files).consumed := by
  intro files
  induction files with
  | nil => intro s; rfl
  | cons f rest ih =>
    intro s
    rw [runAux_cons]
    split
    · dsimp only
      rw [ih (process_file f cfg s).1, process_file_processed]
      omega
    · dsimp only
      rw [process_file_processed]

lemma runAux_append (cfg : ImportConfig) :
    ∀ (xs ys : List FileCase) (s : ImportStats), (runAux cfg s xs).aborted = false →
    runAux cfg s (xs ++ ys) =
      ⟨(runAux cfg (runAux cfg s xs).stats ys).stats,
        (runAux cfg s xs).consumed + (runAux cfg (runAux cfg s xs).stats ys).consumed,
        (runAux cfg (runAux cfg s xs).stats ys).aborted,
        (runAux cfg s xs).actions ++ (runAux cfg (runAux cfg s xs).stats ys).actions⟩ := by
  intro xs
  induction xs with
  | nil =>
    intro ys s _
    simp only [List.nil_append, runAux, Nat.zero_add]
  | cons x xs ih =>
    intro ys s hab
    rw [runAux_cons] at hab
    rw [List.cons_append, runAux_cons, runAux_cons]
    split
    · rename_i hcont
      rw [if_pos hcont] at hab
      dsimp only at hab ⊢
      rw [ih ys (process_file x cfg s).1 hab]
      simp only [RunResult.mk.injEq, List.append_assoc, true_and, and_true]
      omega
    · rename_i hcont
      rw [if_neg hcont] at hab
      simp at hab

lemma countNoDate_cons (f : FileCase) (rest : List FileCase) :
    countNoDate (f :: rest) =
      (if (get_date_taken f.path f.exiftool f.exifread).isNone then 1 else 0) +
        countNoDate rest := by
  rw [countNoDate, countNoDate, List.filter]
  cases hd : (get_date_taken f.path f.exiftool f.exifread).isNone
  · simp
  · simp
    omega

lemma runAux_invariant (cfg : ImportConfig) :
    ∀ (files : List FileCase) (s : ImportStats) (g : Nat),
      (s.errors : Int) < cfg.max_errors →
      s.processed = s.imported + s.skipped + g + s.errors →
      ((runAux cfg s files).stats).processed =
        ((runAux cfg s files).stats).imported + ((runAux cfg s files).stats).skipped +
          (g + countNoDate (files.take (runAux cfg s files).consumed)) +
          ((runAux cfg s files).stats).errors := by
  intro files
  induction files with
  | nil =>
    intro s g hlt heq
    simpa [runAux, countNoDate] using heq
  | cons f rest ih =>
    intro s g hlt heq
    obtain ⟨hacc, hcont⟩ := process_file_accounting f cfg s hlt
    have hproc := process_file_processed f cfg s
    rw [runAux_cons]
    split
    · rename_i hc
      dsimp only
      have hlt2 := hcont hc
      have ih2 := ih (process_file f cfg s).1
        (g + (if (get_date_taken f.path f.exiftool f.exifread).isNone then 1 else 0))
        hlt2 (by omega)
      rw [List.take_succ_cons, countNoDate_cons]
      omega
    · dsimp only
      rw [List.take_succ_cons, List.take_zero, countNoDate_cons, countNoDate]
      simp only [List.filter_nil, List.length_nil]
      omega

/-! The claims. -/

/-- C7: for every configuration and candidate file, `process_file` increments
`processed` exactly once regardless of the file's outcome, and over a whole
run the final `processed` equals the starting value plus the number of
candidate files handed to `process_file`. -/
theorem c7_processed_once_per_candidate :
    (∀ (f : FileCase) (cfg : ImportConfig) (s : ImportStats),
      (process_file f cfg s).1.processed = s.processed + 1) ∧
    (∀ (cfg : ImportConfig) (s : ImportStats) (files : List FileCase),
      ((runAux cfg s files).stats).processed = s.processed + (runAux cfg s files).consumed) :=
  ⟨process_file_processed, fun cfg s files => runAux_processed cfg files s⟩

/-- C9: calling `run` when `validate_arguments` has not stored a configuration
raises `ValueError` immediately, for every file list: no stats record is built
and no file is visited. -/
theorem c9_run_requires_validation :
    ∀ files : List FileCase,
      run none files = Except.error "Must call validate_arguments before run" :=
  fun _ => rfl

/-- C10: with `max_errors = 0` and at least one candidate file, the run
processes exactly the first candidate (`processed = 1`), the error gate aborts
before date resolution, directory creation, or any copy is attempted (empty
effect trace), and all other counters are zero. -/
theorem c10_zero_budget_halts_first_file (cfg : ImportConfig) (f : FileCase)
    (rest : List FileCase) (h : cfg.max_errors = 0) :
    run (some cfg) (f :: rest) =
      Except.ok ⟨{ processed := 1, imported := 0, skipped := 0, errors := 0 }, 1, true, []⟩ := by
  have hgate : ((({} : ImportStats).errors : Int) ≥ cfg.max_errors) := by
    rw [h]
    decide
  have hp : process_file f cfg {} =
      ({ processed := 1, imported := 0, skipped := 0, errors := 0 }, false, []) := by
    unfold process_file
    dsimp only
    rw [if_pos hgate]
  rw [run, runAux_cons, hp]
  rfl

/-- Witness for C10 at a concrete configuration and file list. -/
theorem c10_zero_budget_halts_first_file_witness :
    run (some { source_dir := "s", target_dir := "t", max_errors := 0 })
      [{ path := "a.jpg", exiftool := .exn,
         exifread := .tags (some "2024:01:01 12:00:00") none,
         mkdir_ok := true, fs := [], copy_ok := true },
       { path := "b.jpg", exiftool := .exn, exifread := .tags none none,
         mkdir_ok := true, fs := [], copy_ok := true }] =
      Except.ok ⟨{ processed := 1, imported := 0, skipped := 0, errors := 0 }, 1, true, []⟩ :=
  c10_zero_budget_halts_first_file _ _ _ rfl

/-- C6: a candidate whose date resolution returns no date is logged and passed
over: only `processed` is incremented (`errors`, `skipped`, `imported` are
unchanged), the continue flag stays true, and the run proceeds to the
remaining files rather than halting. -/
theorem c6_missing_date_passthrough (f : FileCase) (cfg : ImportConfig)
    (s : ImportStats) (rest : List FileCase)
    (hgate : (s.errors : Int) < cfg.max_errors)
    (hdate : get_date_taken f.path f.exiftool f.exifread = none) :
    process_file f cfg s =
      ({ s with processed := s.processed + 1 }, true, [FsAction.resolve f.path]) ∧
    runAux cfg s (f :: rest) =
      ⟨(runAux cfg { s with processed := s.processed + 1 } rest).stats,
       (runAux cfg { s with processed := s.processed + 1 } rest).consumed + 1,
       (runAux cfg { s with processed := s.processed + 1 } rest).aborted,
       FsAction.resolve f.path ::
         (runAux cfg { s with processed := s.processed + 1 } rest).actions⟩ := by
  have hp : process_file f cfg s =
      ({ s with processed := s.processed + 1 }, true, [FsAction.resolve f.path]) := by
    unfold process_file
    dsimp only
    rw [if_neg (by omega), hdate]
  refine ⟨hp, ?_⟩
  rw [runAux_cons, hp]
  simp

/-- Witness for C6 at a concrete file whose exifread call raises. -/
theorem c6_missing_date_passthrough_witness :
    process_file
        { path := "a.jpg", exiftool := .exn, exifread := .exn,
          mkdir_ok := true, fs := [], copy_ok := true }
        { source_dir := "s", target_dir := "t" } {} =
      ({ processed := 1, imported := 0, skipped := 0, errors := 0 }, true,
        [FsAction.resolve "a.jpg"]) :=
  (c6_missing_date_passthrough _ _ {} [] (by decide) (by decide)).1

/-- C1: with `max_errors = N ≥ 1`, the step that produces the Nth error (the
in-flight file's own error is counted) makes the `errors >= max_errors` check
true immediately: `process_file` returns continue = false with `errors = N`,
the loop halts with exactly `pre.length + 1` files visited, the remaining
files are never attempted, and the stats at that moment are the final result. -/
theorem c1_abort_on_nth_error (cfg : ImportConfig) (N : Nat) (pre : List FileCase)
    (f : FileCase) (rest : List FileCase) (s : ImportStats) (tr : List FsAction)
    (hN : cfg.max_errors = (N : Int)) (_hN1 : 1 ≤ N)
    (hpre : runAux cfg {} pre = ⟨s, pre.length, false, tr⟩)
    (hs : s.errors + 1 = N)
    (herr : (process_file f cfg s).1.errors = s.errors + 1) :
    (process_file f cfg s).2.1 = false ∧
    (process_file f cfg s).1.errors = N ∧
    runAux cfg {} (pre ++ f :: rest) =
      ⟨(process_file f cfg s).1, pre.length + 1, true, tr ++ (process_file f cfg s).2.2⟩ := by
  have hcont := process_file_error_cont f cfg s herr
  have hfalse : (process_file f cfg s).2.1 = false := by
    rw [hcont, hN, decide_eq_false_iff_not]
    omega
  refine ⟨hfalse, by omega, ?_⟩
  have happ := runAux_append cfg pre (f :: rest) {} (by rw [hpre])
  rw [happ, hpre]
  dsimp only
  rw [runAux_cons, hfalse]
  simp

/-- Witness for C1: `max_errors = 1`, empty prefix, first file fails its
directory creation, one further file that is never visited. -/
theorem c1_abort_on_nth_error_witness :
    (process_file
        { path := "a.jpg", exiftool := .exn,
          exifread := .tags (some "2024:01:01 12:00:00") none,
          mkdir_ok := false, fs := [], copy_ok := true }
        { source_dir := "s", target_dir := "t", max_errors := 1 } ⟨0, 0, 0, 0⟩).2.1 = false ∧
    (process_file
        { path := "a.jpg", exiftool := .exn,
          exifread := .tags (some "2024:01:01 12:00:00") none,
          mkdir_ok := false, fs := [], copy_ok := true }
        { source_dir := "s", target_dir := "t", max_errors := 1 } ⟨0, 0, 0, 0⟩).1.errors = 1 ∧
    runAux { source_dir := "s", target_dir := "t", max_errors := 1 } {}
        ([] ++
          { path := "a.jpg", exiftool := .exn,
            exifread := .tags (some "2024:01:01 12:00:00") none,
            mkdir_ok := false, fs := [], copy_ok := true } ::
            [{ path := "b.jpg", exiftool := .exn, exifread := .tags none none,
               mkdir_ok := true, fs := [], copy_ok := true }]) =
      ⟨(process_file
          { path := "a.jpg", exiftool := .exn,
            exifread := .tags (some "2024:01:01 12:00:00") none,
            mkdir_ok := false, fs := [], copy_ok := true }
          { source_dir := "s", target_dir := "t", max_errors := 1 } ⟨0, 0, 0, 0⟩).1,
        List.length ([] : List FileCase) + 1, true,
        [] ++ (process_file
          { path := "a.jpg", exiftool := .exn,
            exifread := .tags (some "2024:01:01 12:00:00") none,
            mkdir_ok := false, fs := [], copy_ok := true }
          { source_dir := "s", target_dir := "t", max_errors := 1 } ⟨0, 0, 0, 0⟩).2.2⟩ :=
  c1_abort_on_nth_error
    { source_dir := "s", target_dir := "t", max_errors := 1 } 1 []
    { path := "a.jpg", exiftool := .exn,
      exifread := .tags (some "2024:01:01 12:00:00") none,
      mkdir_ok := false, fs := [], copy_ok := true }
    [{ path := "b.jpg", exiftool := .exn, exifread := .tags none none,
       mkdir_ok := true, fs := [], copy_ok := true }]
    ⟨0, 0, 0, 0⟩ [] (by decide) (by decide) (by decide) (by decide) (by decide)

/-- C2 as stated is false: with `max_errors = 0` the entry gate aborts the
first candidate after `processed` was incremented but before any other
counter or the missing-date count could account for it, so
`processed = 1 ≠ 0 = imported + skipped + missingDate + errors`. -/
theorem c2_counterexample :
    ¬ (((runAux { source_dir := "s", target_dir := "t", max_errors := 0 } {}
          [{ path := "a.jpg", exiftool := .exn,
             exifread := .tags (some "2024:01:01 12:00:00") none,
             mkdir_ok := true, fs := [], copy_ok := true }]).stats).processed =
        ((runAux { source_dir := "s", target_dir := "t", max_errors := 0 } {}
          [{ path := "a.jpg", exiftool := .exn,
             exifread := .tags (some "2024:01:01 12:00:00") none,
             mkdir_ok := true, fs := [], copy_ok := true }]).stats).imported +
        ((runAux { source_dir := "s", target_dir := "t", max_errors := 0 } {}
          [{ path := "a.jpg", exiftool := .exn,
             exifread := .tags (some "2024:01:01 12:00:00") none,
             mkdir_ok := true, fs := [], copy_ok := true }]).stats).skipped +
        countNoDate
          ([{ path := "a.jpg", exiftool := .exn,
              exifread := .tags (some "2024:01:01 12:00:00") none,
              mkdir_ok := true, fs := [], copy_ok := true }].take
            (runAux { source_dir := "s", target_dir := "t", max_errors := 0 } {}
              [{ path := "a.jpg", exiftool := .exn,
                 exifread := .tags (some "2024:01:01 12:00:00") none,
                 mkdir_ok := true, fs := [], copy_ok := true }]).consumed) +
        ((runAux { source_dir := "s", target_dir := "t", max_errors := 0 } {}
          [{ path := "a.jpg", exiftool := .exn,
             exifread := .tags (some "2024:01:01 12:00:00") none,
             mkdir_ok := true, fs := [], copy_ok := true }]).stats).errors) := by
  decide

/-- C2 amended: provided `max_errors ≥ 1` (so the entry gate can never fire on
a fresh run and every counted file is fully handled), after any number of
handled candidates — every prefix of the run, hence also the final state —
`processed = imported + skipped + missingDateCount + errors`, where the
missing-date count ranges over the candidates actually consumed. -/
theorem c2_stats_invariant (cfg : ImportConfig) (files : List FileCase) (k : Nat)
    (h : 1 ≤ cfg.max_errors) :
    ((runAux cfg {} (files.take k)).stats).processed =
      ((runAux cfg {} (files.take k)).stats).imported +
        ((runAux cfg {} (files.take k)).stats).skipped +
        countNoDate ((files.take k).take (runAux cfg {} (files.take k)).consumed) +
        ((runAux cfg {} (files.take k)).stats).errors := by
  have h0 : ((({} : ImportStats).errors : Int) < cfg.max_errors) := by
    show ((0 : Nat) : Int) < cfg.max_errors
    omega
  have := runAux_invariant cfg (files.take k) {} 0 h0 rfl
  simpa using this

/-- Witness for C2 amended: a two-file run with one import and one
missing-date pass-through under `max_errors = 1`. -/
theorem c2_stats_invariant_witness :
    ((runAux { source_dir := "s", target_dir := "t", max_errors := 1 } {}
        ([{ path := "a.jpg", exiftool := .exn,
            exifread := .tags (some "2024:01:01 12:00:00") none,
            mkdir_ok := true, fs := [], copy_ok := true },
          { path := "b.jpg", exiftool := .exn, exifread := .tags none none,
            mkdir_ok := true, fs := [], copy_ok := true }].take 2)).stats).processed =
      ((runAux { source_dir := "s", target_dir := "t", max_errors := 1 } {}
        ([{ path := "a.jpg", exiftool := .exn,
            exifread := .tags (some "2024:01:01 12:00:00") none,
            mkdir_ok := true, fs := [], copy_ok := true },
          { path := "b.jpg", exiftool := .exn, exifread := .tags none none,
            mkdir_ok := true, fs := [], copy_ok := true }].take 2)).stats).imported +
      ((runAux { source_dir := "s", target_dir := "t", max_errors := 1 } {}
        ([{ path := "a.jpg", exiftool := .exn,
            exifread := .tags (some "2024:01:01 12:00:00") none,
            mkdir_ok := true, fs := [], copy_ok := true },
          { path := "b.jpg", exiftool := .exn, exifread := .tags none none,
            mkdir_ok := true, fs := [], copy_ok := true }].take 2)).stats).skipped +
      countNoDate
        (([{ path := "a.jpg", exiftool := .exn,
             exifread := .tags (some "2024:01:01 12:00:00") none,
             mkdir_ok := true, fs := [], copy_ok := true },
           { path := "b.jpg", exiftool := .exn, exifread := .tags none none,
             mkdir_ok := true, fs := [], copy_ok := true }].take 2).take
          (runAux { source_dir := "s", target_dir := "t", max_errors := 1 } {}
            ([{ path := "a.jpg", exiftool := .exn,
                exifread := .tags (some "2024:01:01 12:00:00") none,
                mkdir_ok := true, fs := [], copy_ok := true },
              { path := "b.jpg", exiftool := .exn, exifread := .tags none none,
                mkdir_ok := true, fs := [], copy_ok := true }].take 2)).consumed) +
      ((runAux { source_dir := "s", target_dir := "t", max_errors := 1 } {}
        ([{ path := "a.jpg", exiftool := .exn,
            exifread := .tags (some "2024:01:01 12:00:00") none,
            mkdir_ok := true, fs := [], copy_ok := true },
          { path := "b.jpg", exiftool := .exn, exifread := .tags none none,
            mkdir_ok := true, fs := [], copy_ok := true }].take 2)).stats).errors :=
  c2_stats_invariant { source_dir := "s", target_dir := "t", max_errors := 1 }
    [{ path := "a.jpg", exiftool := .exn,
       exifread := .tags (some "2024:01:01 12:00:00") none,
       mkdir_ok := true, fs := [], copy_ok := true },
     { path := "b.jpg", exiftool := .exn, exifread := .tags none none,
       mkdir_ok := true, fs := [], copy_ok := true }] 2 (by decide)

/-- C3 as stated is false: the code never examines the external tool's exit
status, so a non-zero exit (here 1) whose stdout still parses yields a date
rather than "no date". -/
theorem c3_counterexample :
    extract_date_with_exiftool (ExiftoolResult.ok "2024:01:01 12:00:00" 1) =
      some ⟨2024, 1, 1, 12, 0, 0⟩ ∧ (1 : Int) ≠ 0 := by
  decide

/-- C3 amended: date resolution never raises — every failure degrades to "no
date".  For the exiftool path: a tool-invocation failure, empty trimmed
stdout, or a parse failure of the trimmed stdout each yield `none` (the exit
status is not examined and does not by itself force `none`); the exifread
path maps its exception to `none`; and `get_date_taken` dispatches on the
lowered extension exactly between the two strategies. -/
theorem c3_resolver_failure_modes (path : String) (ft : ExiftoolResult)
    (fr : ExifreadResult) (out : String) (rc : Int) :
    extract_date_with_exiftool ExiftoolResult.exn = none ∧
    (pystrip out = "" → extract_date_with_exiftool (ExiftoolResult.ok out rc) = none) ∧
    (strptime_YmdHMS (pystrip out) = none →
      extract_date_with_exiftool (ExiftoolResult.ok out rc) = none) ∧
    extract_date_with_exifread path ExifreadResult.exn = none ∧
    (pylower (splitext path).2 = ".raf" →
      get_date_taken path ft fr = extract_date_with_exiftool ft) ∧
    (pylower (splitext path).2 ≠ ".raf" →
      get_date_taken path ft fr = extract_date_with_exifread path fr) := by
  refine ⟨rfl, ?_, ?_, ?_, ?_, ?_⟩
  · intro h
    rw [extract_date_with_exiftool]
    rw [if_pos h]
  · intro h
    rw [extract_date_with_exiftool]
    split
    · rfl
    · exact h
  · rw [extract_date_with_exifread]
    split
    · rfl
    · rfl
  · intro h
    rw [get_date_taken, if_pos h]
  · intro h
    rw [get_date_taken, if_neg h]

/-- Witness for C3 amended at concrete inputs: empty stdout yields no date,
and a `.raf` path is dispatched to the exiftool strategy. -/
theorem c3_resolver_failure_modes_witness :
    extract_date_with_exiftool (ExiftoolResult.ok "" 0) = none ∧
    get_date_taken "b.raf" ExiftoolResult.exn (ExifreadResult.tags none none) =
      extract_date_with_exiftool ExiftoolResult.exn := by
  have h := c3_resolver_failure_modes "b.raf" ExiftoolResult.exn
    (ExifreadResult.tags none none) "" 0
  exact ⟨h.2.1 (by decide), h.2.2.2.2.1 (by decide)⟩

/-- C4: collision handling for a planned destination `dest` in the set `fs` of
existing paths — an unused path is returned unchanged; with `skip_existing`
the planner signals skip and `process_file` increments `skipped` without any
copy attempt; with `overwrite` the path is returned unchanged and the copy
targets it; otherwise the first free `_1, _2, ...` suffixed variant (before
the extension) is returned. -/
theorem c4_collision_policy (fs : List String) (cfg : ImportConfig) (dest : String) :
    (dest ∉ fs → plan_dest_path fs cfg dest = some dest) ∧
    (dest ∈ fs → cfg.skip_existing = true → plan_dest_path fs cfg dest = none) ∧
    (dest ∈ fs → cfg.skip_existing = false → cfg.overwrite = true →
      plan_dest_path fs cfg dest = some dest) ∧
    (dest ∈ fs → cfg.skip_existing = false → cfg.overwrite = false →
      ∃ k, 1 ≤ k ∧
        (∀ i, 1 ≤ i → i < k → uniqueCand (splitext dest).1 (splitext dest).2 i ∈ fs) ∧
        uniqueCand (splitext dest).1 (splitext dest).2 k ∉ fs ∧
        plan_dest_path fs cfg dest =
          some (uniqueCand (splitext dest).1 (splitext dest).2 k)) ∧
    (∀ (f : FileCase) (s : ImportStats) (d : DateTime),
      (s.errors : Int) < cfg.max_errors →
      get_date_taken f.path f.exiftool f.exifread = some d →
      f.mkdir_ok = true →
      cfg.skip_existing = true →
      pjoin (dest_dir_for cfg d) (basename f.path) ∈ f.fs →
      process_file f cfg s =
        ({ s with processed := s.processed + 1, skipped := s.skipped + 1 }, true,
          [FsAction.resolve f.path, FsAction.mkdir (dest_dir_for cfg d)])) ∧
    (∀ (f : FileCase) (s : ImportStats) (d : DateTime),
      (s.errors : Int) < cfg.max_errors →
      get_date_taken f.path f.exiftool f.exifread = some d →
      f.mkdir_ok = true →
      cfg.skip_existing = false → cfg.overwrite = true →
      pjoin (dest_dir_for cfg d) (basename f.path) ∈ f.fs →
      (process_file f cfg s).2.2 =
        [FsAction.resolve f.path, FsAction.mkdir (dest_dir_for cfg d),
          FsAction.copy f.path (pjoin (dest_dir_for cfg d) (basename f.path))]) := by
  refine ⟨?_, ?_, ?_, ?_, ?_, ?_⟩
  · intro h
    rw [plan_dest_path, if_neg h]
  · intro h1 h2
    rw [plan_dest_path, if_pos h1, if_pos h2]
  · intro h1 h2 h3
    rw [plan_dest_path, if_pos h1]
    rw [h2]
    rw [if_neg (by simp), if_neg (by simp [h3])]
  · intro h1 h2 h3
    obtain ⟨k, hk1, hkmin, hkfree, hkeq⟩ := get_unique_spec fs dest h1
    refine ⟨k, hk1, hkmin, hkfree, ?_⟩
    rw [plan_dest_path, if_pos h1, h2]
    rw [if_neg (by simp), if_pos (by simp [h3]), hkeq]
  · intro f s d hgate hd hmk hskip hmem
    unfold process_file
    dsimp only
    rw [if_neg (by omega), hd]
    dsimp only
    rw [if_neg (by simp [hmk])]
    rw [plan_dest_path, if_pos hmem, if_pos hskip]
  · intro f s d hgate hd hmk hskip hover hmem
    unfold process_file
    dsimp only
    rw [if_neg (by omega), hd]
    dsimp only
    rw [if_neg (by simp [hmk])]
    rw [plan_dest_path, if_pos hmem, hskip]
    rw [if_neg (by simp), if_neg (by simp [hover])]
    dsimp only
    split
    · rfl
    · rfl

/-- Witness for C4 at concrete inputs: with neither flag set and both
`t/a.jpg` and `t/a_1.jpg` occupied, the planner returns the first free
suffixed variant. -/
theorem c4_collision_policy_witness :
    ∃ k, 1 ≤ k ∧
      (∀ i, 1 ≤ i → i < k →
        uniqueCand (splitext "t/a.jpg").1 (splitext "t/a.jpg").2 i ∈
          ["t/a.jpg", "t/a_1.jpg"]) ∧
      uniqueCand (splitext "t/a.jpg").1 (splitext "t/a.jpg").2 k ∉
        ["t/a.jpg", "t/a_1.jpg"] ∧
      plan_dest_path ["t/a.jpg", "t/a_1.jpg"]
          { source_dir := "s", target_dir := "t" } "t/a.jpg" =
        some (uniqueCand (splitext "t/a.jpg").1 (splitext "t/a.jpg").2 k) :=
  (c4_collision_policy ["t/a.jpg", "t/a_1.jpg"]
      { source_dir := "s", target_dir := "t" } "t/a.jpg").2.2.2.1
    (by decide) rfl rfl

/-- C8: `validate_arguments` with both `skip_existing` and `overwrite` always
fails producing no config, and the CLI never enters the pipeline in that
case; validation succeeds exactly when the two flags are not both set and the
source directory exists, is a directory, and is readable. -/
theorem c8_flag_validation (a : Args) (env : ValidateEnv) (files : List FileCase) :
    (a.skip_existing = true → a.overwrite = true →
      validate_arguments a env = (false, none) ∧ cli_main a env files = (1, false)) ∧
    ((validate_arguments a env).1 = true ↔
      ¬(a.skip_existing = true ∧ a.overwrite = true) ∧ env.src_exists = true ∧
        env.src_isdir = true ∧ env.src_readable = true) := by
  obtain ⟨sd, td, se, ov, me⟩ := a
  obtain ⟨e1, e2, e3⟩ := env
  constructor
  · intro h1 h2
    dsimp only at h1 h2
    subst h1
    subst h2
    constructor
    · rw [validate_arguments, if_pos (by constructor <;> rfl)]
    · rw [cli_main, if_pos (by constructor <;> rfl)]
  · cases se <;> cases ov <;> cases e1 <;> cases e2 <;> cases e3 <;>
      simp [validate_arguments]

/-- Witness for C8: both flags set at a concrete namespace fail validation
and skip the pipeline. -/
theorem c8_flag_validation_witness :
    validate_arguments
        { source_dir := "s", target_dir := "t", skip_existing := true,
          overwrite := true, max_errors := 10 }
        { src_exists := true, src_isdir := true, src_readable := true } =
      (false, none) ∧
    cli_main
        { source_dir := "s", target_dir := "t", skip_existing := true,
          overwrite := true, max_errors := 10 }
        { src_exists := true, src_isdir := true, src_readable := true } [] =
      (1, false) :=
  (c8_flag_validation
      { source_dir := "s", target_dir := "t", skip_existing := true,
        overwrite := true, max_errors := 10 }
      { src_exists := true, src_isdir := true, src_readable := true } []).1 rfl rfl

/-- C5: for a target root (nonempty, not ending in a slash) and any resolved
capture date, the planned destination directory is
`targetRoot/YYYY/MM/DD` with a four-digit zero-padded year segment and
two-digit zero-padded month and day segments; and the concrete timestamp
`2024:01:01 12:00:00` (EXIF `DateTimeOriginal` format) parses to the date
whose segments are `2024`, `01`, `01`. -/
theorem c5_destination_directory (cfg : ImportConfig) (d : DateTime)
    (hy : d.year ≤ 9999) (hm : d.month ≤ 99) (hd : d.day ≤ 99)
    (hroot1 : cfg.target_dir.data ≠ [])
    (hroot2 : cfg.target_dir.data.getLast? ≠ some '/') :
    dest_dir_for cfg d =
      cfg.target_dir ++ "/" ++ padZero 4 (pyStr d.year) ++ "/" ++
        padZero 2 (pyStr d.month) ++ "/" ++ padZero 2 (pyStr d.day) ∧
    (padZero 4 (pyStr d.year)).data.length = 4 ∧
    (padZero 2 (pyStr d.month)).data.length = 2 ∧
    (padZero 2 (pyStr d.day)).data.length = 2 ∧
    strptime_YmdHMS "2024:01:01 12:00:00" = some ⟨2024, 1, 1, 12, 0, 0⟩ ∧
    padZero 4 (pyStr 2024) = "2024" ∧ padZero 2 (pyStr 1) = "01" := by
  refine ⟨?_, ?_, ?_, ?_, by decide, by decide, by decide⟩
  · rw [dest_dir_for]
    rw [pjoin_of_components cfg.target_dir _ (padZero_pyStr_head_ne 4 d.year)
      hroot1 hroot2]
    rw [pjoin_of_components _ _ (padZero_pyStr_head_ne 2 d.month)
      (append_component_ne_nil _ 4 d.year) (append_component_getLast_ne _ 4 d.year)]
    rw [pjoin_of_components _ _ (padZero_pyStr_head_ne 2 d.day)
      (append_component_ne_nil _ 2 d.month) (append_component_getLast_ne _ 2 d.month)]
  · exact padZero_length 4 _ (pyStr_length_le d.year 4 (by omega)
      (by have : (10 : Nat) ^ 4 = 10000 := by norm_num
          omega))
  · exact padZero_length 2 _ (pyStr_length_le d.month 2 (by omega)
      (by have : (10 : Nat) ^ 2 = 100 := by norm_num
          omega))
  · exact padZero_length 2 _ (pyStr_length_le d.day 2 (by omega)
      (by have : (10 : Nat) ^ 2 = 100 := by norm_num
          omega))

/-- Witness for C5 at the concrete round-trip date and a concrete root. -/
theorem c5_destination_directory_witness :
    dest_dir_for { source_dir := "s", target_dir := "t" } ⟨2024, 1, 1, 12, 0, 0⟩ =
      ("t" : String) ++ "/" ++ padZero 4 (pyStr 2024) ++ "/" ++ padZero 2 (pyStr 1) ++
        "/" ++ padZero 2 (pyStr 1) ∧
    strptime_YmdHMS "2024:01:01 12:00:00" = some ⟨2024, 1, 1, 12, 0, 0⟩ := by
  have h := c5_destination_directory { source_dir := "s", target_dir := "t" }
    ⟨2024, 1, 1, 12, 0, 0⟩ (by decide) (by decide) (by decide) (by decide) (by decide)
  exact ⟨h.1, h.2.2.2.2.1⟩
